import Mathlib

/-!
Shallow embedding of the synchronization / capacity-enforcement / artifact-replacement
engine of `timelapse_creator_testbed.py`, together with theorems settling the
frozen claims about its specification.

The remote store (Google Drive) is modelled as a paged listing: a list of pages,
each page a list of `DriveImage`.  A single `files().list` call without a page
token returns the first page; the paging loop in `get_google_drive_images`
concatenates all pages.  Fallible per-item operations (downloads, deletions)
are modelled by outcome oracles passed as parameters.
-/

namespace Timelapse

/-- A remote object as returned by Drive listings: `files(id, name, createdTime,
modifiedTime, size)`.  Timestamps are modelled as naturals. -/
structure DriveImage where
  id : String
  name : String
  modified : Nat
  size : Nat
deriving DecidableEq, Repr

/-- A local-mirror entry as produced by `get_local_storage_info_by_domain_camera`:
`{name, path, size, modified}` (the path is determined by the name, so omitted). -/
structure LocalEntry where
  name : String
  modified : Nat
  size : Nat
deriving DecidableEq, Repr

/-! ## `os.path.splitext` stem extraction

`identify_new_images` compares names via `os.path.splitext(name)[0]`.
Python's `splitext` takes the root up to the last dot, except that a run of
leading dots never starts an extension (`splitext(".jpg") = (".jpg", "")`). -/

/-- Index of the last `.` in a character list, if any. -/
def lastDotIdx (cs : List Char) : Option Nat :=
  ((List.range cs.length).filter (fun i => decide (cs.getD i ' ' = '.'))).getLast?

/-- Root part of `os.path.splitext` on a plain file name (no path separators). -/
def stemChars (cs : List Char) : List Char :=
  match lastDotIdx cs with
  | none => cs
  | some i => if (cs.take i).all (fun c => decide (c = '.')) then cs else cs.take i

/-- `stem name` is `os.path.splitext(name)[0]`. -/
def stem (s : String) : String := String.mk (stemChars s.data)

/-- The set (as a list) of local name stems, as built in `identify_new_images`:
`{os.path.splitext(f['name'])[0] for f in local_storage_info['files']}`. -/
def localStems (files : List LocalEntry) : List String :=
  files.map (fun f => stem f.name)

/-- Name stems of a remote listing, `{stem(name) for name in remoteList}`. -/
def gdStems (gd : List DriveImage) : List String :=
  gd.map (fun g => stem g.name)

/-- `identify_new_images(google_drive_images, local_storage_info)`: loop over the
remote listing appending each image whose stem is not among the local stems. -/
def identify_new_images (gd : List DriveImage) (localFiles : List LocalEntry) :
    List DriveImage :=
  gd.foldl
    (fun acc g => if stem g.name ∈ localStems localFiles then acc else acc ++ [g])
    []

/-! ## Downloads -/

/-- Outcome of one download in `download_new_images`: success; failure raised
after `open(file_path, 'wb')` succeeded (the destination file exists, possibly
truncated); failure raised before the file was opened. -/
inductive DlOutcome
  | ok
  | failAfterOpen
  | failBeforeOpen
deriving DecidableEq, Repr

/-- The download loop of `download_new_images`: each iteration downloads one
image into the mirror.  A success increments the count and writes the file
under the object's original name; a failure after `open` leaves the (possibly
empty) file in place without counting it; a failure before `open` leaves the
mirror unchanged.  Each failure is logged and the loop continues. -/
def downloadLoop (outcome : DriveImage → DlOutcome) (t : Nat) :
    List DriveImage → Nat × List LocalEntry → Nat × List LocalEntry
  | [], acc => acc
  | img :: rest, acc =>
    downloadLoop outcome t rest
      (match outcome img with
       | .ok => (acc.1 + 1, acc.2 ++ [⟨img.name, t, img.size⟩])
       | .failAfterOpen => (acc.1, acc.2 ++ [⟨img.name, t, 0⟩])
       | .failBeforeOpen => acc)

/-- `download_new_images(service, new_images, local_image_folder)`.
Returns the downloaded count together with the local mirror after the batch.
`t` is the modification time stamped on files written now. -/
def download_new_images (outcome : DriveImage → DlOutcome)
    (newImages : List DriveImage) (localFiles : List LocalEntry) (t : Nat) :
    Nat × List LocalEntry :=
  if newImages.isEmpty then (0, localFiles)
  else downloadLoop outcome t newImages (0, localFiles)

/-- Steps 1–3 of `synchronize_images`: list both stores, identify new images,
download them.  When the remote listing is empty the function returns early
("skipping synchronization") and the mirror is untouched. -/
def downloadPhase (outcome : DriveImage → DlOutcome) (gd : List DriveImage)
    (localFiles : List LocalEntry) (t : Nat) : Nat × List LocalEntry :=
  if gd.isEmpty then (0, localFiles)
  else download_new_images outcome (identify_new_images gd localFiles) localFiles t

/-! ## Remote paging -/

/-- The paged remote listing: page `i` is what `files().list` returns for the
`i`-th continuation token. -/
abbrev Pages := List (List DriveImage)

/-- The paging loop of `get_google_drive_images`: issue a list call, append the
page, continue while a `nextPageToken` remains. -/
def get_google_drive_images : Pages → List DriveImage
  | [] => []
  | page :: rest => page ++ get_google_drive_images rest

/-- A single `files().list` call without a page token, as issued by
`cleanup_google_drive_overflow` and `cleanup_unused_google_drive_images`:
it returns only the first page. -/
def listSinglePage (pages : Pages) : List DriveImage := pages.headD []

/-! ## Deletion outcomes -/

/-- Outcome of one `files().delete` call. -/
inductive DelRes
  | ok
  | notFound
  | permission
  | rateLimited
  | otherHttp
  | otherExc
deriving DecidableEq, Repr

/-- Whether a raw delete call succeeded (did not raise). -/
def delSucceeds : DelRes → Bool
  | .ok => true
  | _ => false

/-! ## Capacity enforcement -/

/-- `cleanup_old_images(local_storage_info, max_images)`: the listing is sorted
ascending by modification time; remove the first `count - max_images` entries,
counting only successful `os.remove` calls; a failed removal is logged and the
entry stays.  Returns the removed count and the resulting mirror. -/
def cleanup_old_images (removeOk : LocalEntry → Bool)
    (files : List LocalEntry) (maxImages : Nat) : Nat × List LocalEntry :=
  if files.length ≤ maxImages then (0, files)
  else
    let toRemove := files.take (files.length - maxImages)
    let kept := files.drop (files.length - maxImages)
    ((toRemove.filter removeOk).length,
     toRemove.filter (fun e => !(removeOk e)) ++ kept)

/-- `cleanup_google_drive_overflow(service, image_folder_id, max_images)`: one
list call ordered by `modifiedTime asc` (first page only), then delete the
first `count - max_images` listed images; each delete failure is logged and
the loop continues.  Returns the removed count and the remote store after the
deletions (the full multi-page store minus the successfully deleted images). -/
def cleanup_google_drive_overflow (delRes : DriveImage → DelRes)
    (pages : Pages) (maxImages : Nat) : Nat × List DriveImage :=
  let all_images := listSinglePage pages
  if all_images.length ≤ maxImages then (0, get_google_drive_images pages)
  else
    let toRemove := all_images.take (all_images.length - maxImages)
    let deleted := toRemove.filter (fun e => delSucceeds (delRes e))
    (deleted.length,
     (get_google_drive_images pages).filter (fun e => decide (e ∉ deleted)))

/-- `cleanup_unused_google_drive_images(service, image_folder_id,
used_image_names, max_keep_images)`: one list call ordered by
`modifiedTime desc` (first page only); images whose name is not among the
used names are "unused"; delete the last `min(count - max_keep, #unused)`
unused images (the oldest, at the tail of the descending list).  Returns the
deleted count and the remote store after the deletions. -/
def cleanup_unused_google_drive_images (delRes : DriveImage → DelRes)
    (pages : Pages) (used_image_names : List String) (max_keep_images : Nat) :
    Nat × List DriveImage :=
  let all_images := listSinglePage pages
  if all_images.isEmpty then (0, get_google_drive_images pages)
  else
    let unused_images :=
      all_images.filter (fun i => decide (i.name ∉ used_image_names))
    if unused_images.isEmpty then (0, get_google_drive_images pages)
    else
      let images_to_delete_n := all_images.length - max_keep_images
      if images_to_delete_n = 0 then (0, get_google_drive_images pages)
      else
        let n := min images_to_delete_n unused_images.length
        let targets := unused_images.drop (unused_images.length - n)
        let deleted := targets.filter (fun e => delSucceeds (delRes e))
        (deleted.length,
         (get_google_drive_images pages).filter (fun e => decide (e ∉ deleted)))

/-! ## Retry wrappers -/

/-- Outcome of one upload attempt inside `upload_video`. -/
inductive UpOutcome
  | success
  | transientErr
  | otherErr
deriving DecidableEq, Repr

/-- How `upload_video` returns to its caller. -/
inductive UpResult
  | uploaded
  | raisedTransient
  | raisedOther
deriving DecidableEq, Repr

/-- The `for attempt in range(max_retries)` loop of `upload_video` with
`max_retries = 3` and `base_delay = 2`.  A transient (SSL/EOF/protocol/
connection/timeout) error sleeps `base_delay * 2 ** attempt` and retries,
re-raising at the last attempt; any other error is re-raised immediately.
Returns the result together with the list of sleep durations. -/
def upload_attempts (o : Nat → UpOutcome) : List Nat → UpResult × List Nat
  | [] => (.raisedTransient, [])
  | a :: rest =>
    match o a with
    | .success => (.uploaded, [])
    | .otherErr => (.raisedOther, [])
    | .transientErr =>
      if rest.isEmpty then (.raisedTransient, [])
      else
        let r := upload_attempts o rest
        (r.1, (2 * 2 ^ a) :: r.2)

/-- `upload_video` with its three attempts `0, 1, 2`. -/
def upload_video_run (o : Nat → UpOutcome) : UpResult × List Nat :=
  upload_attempts o [0, 1, 2]

/-- Outcome of one attempt inside `verify_folder_access`: success, an
`HttpError`, a network error (message contains EOF/SSL/protocol), or any
other exception. -/
inductive VfOutcome
  | ok
  | httpErr
  | netErr
  | otherErr
deriving DecidableEq, Repr

/-- The retry loop of `verify_folder_access` with `max_retries = 3`.  Both
`HttpError`s and network errors sleep `(2 ** attempt) + 1` and retry,
returning `False` after the last attempt; any other exception returns
`False` immediately.  Returns the result with the list of sleeps. -/
def verify_attempts (o : Nat → VfOutcome) : List Nat → Bool × List Nat
  | [] => (false, [])
  | a :: rest =>
    match o a with
    | .ok => (true, [])
    | .otherErr => (false, [])
    | .httpErr =>
      if rest.isEmpty then (false, [])
      else
        let r := verify_attempts o rest
        (r.1, (2 ^ a + 1) :: r.2)
    | .netErr =>
      if rest.isEmpty then (false, [])
      else
        let r := verify_attempts o rest
        (r.1, (2 ^ a + 1) :: r.2)

/-- `verify_folder_access` with its three attempts `0, 1, 2`. -/
def verify_folder_access_run (o : Nat → VfOutcome) : Bool × List Nat :=
  verify_attempts o [0, 1, 2]

/-! ## Deleting a specific published video -/

/-- Result of the pre-deletion `files().get` check in
`delete_specific_timelapse_video`. -/
inductive CheckRes
  | found (trashed : Bool)
  | notFound
  | httpErr
deriving DecidableEq, Repr

/-- `delete_specific_timelapse_video(service, video_id)`.  The pre-check
returns success when the video is already trashed or no longer exists
(404); other check failures are logged and deletion proceeds.  The delete
call treats 404 as success, 403 as failure, 429 as one sleep-then-retry
whose failure is final, and any other error as failure. -/
def delete_specific_timelapse_video (check : CheckRes) (del1 del2 : DelRes) :
    Bool :=
  match check with
  | .found true => true
  | .notFound => true
  | .found false =>
    match del1 with
    | .ok => true
    | .notFound => true
    | .permission => false
    | .rateLimited => (match del2 with | .ok => true | _ => false)
    | .otherHttp => false
    | .otherExc => false
  | .httpErr =>
    match del1 with
    | .ok => true
    | .notFound => true
    | .permission => false
    | .rateLimited => (match del2 with | .ok => true | _ => false)
    | .otherHttp => false
    | .otherExc => false

/-! ## Artifact replacement in `main` -/

/-- Observable events of the artifact-replacement portion of `main`, in
chronological order. -/
inductive Evt
  | uploadAttempt
  | uploadOk
  | deleteOld (id : String)
deriving DecidableEq, Repr

/-- Remote videos and event trace after the replacement steps of one run. -/
structure RunOutcome where
  remoteVideos : List String
  trace : List Evt
deriving DecidableEq, Repr

/-- Steps 3–6 of `main`: the existing video was noted before encoding
(`existing`), the new video is encoded (`createOk`), uploaded inside a
`try` (`uploadSucceeds`; `upload_video` either returns or raises), and only
after a successful upload — and only when `DELETE_PREVIOUS_VIDEO` is set and
an existing video was noted — is `delete_specific_timelapse_video` invoked
(`deleteOk` abstracts its result).  An upload failure is caught, nothing is
deleted, and the old video set is left as it was. -/
def artifactReplaceRun (createOk deletePrev : Bool) (existing : Option String)
    (uploadSucceeds deleteOk : Bool) (videos : List String) (newId : String) :
    RunOutcome :=
  if createOk then
    if uploadSucceeds then
      let afterUpload := newId :: videos
      match deletePrev, existing with
      | true, some oldId =>
        { remoteVideos :=
            if deleteOk then afterUpload.filter (fun v => decide (v ≠ oldId))
            else afterUpload
          trace := [.uploadAttempt, .uploadOk, .deleteOld oldId] }
      | _, _ =>
        { remoteVideos := afterUpload, trace := [.uploadAttempt, .uploadOk] }
    else
      { remoteVideos := videos, trace := [.uploadAttempt] }
  else
    { remoteVideos := videos, trace := [] }

/-! ## Reconciler lemmas -/

theorem identify_foldl_eq (gd : List DriveImage) (ls : List LocalEntry)
    (acc : List DriveImage) :
    gd.foldl
      (fun acc g => if stem g.name ∈ localStems ls then acc else acc ++ [g])
      acc
      = acc ++ gd.filter (fun g => decide (stem g.name ∉ localStems ls)) := by
  induction gd generalizing acc with
  | nil => simp
  | cons g gs ih =>
    simp only [List.foldl_cons, List.filter_cons]
    by_cases h : stem g.name ∈ localStems ls
    · simp [h, ih]
    · simp [h, ih]

theorem identify_eq_filter (gd : List DriveImage) (ls : List LocalEntry) :
    identify_new_images gd ls
      = gd.filter (fun g => decide (stem g.name ∉ localStems ls)) := by
  simpa using identify_foldl_eq gd ls []

theorem mem_identify_iff (gd : List DriveImage) (ls : List LocalEntry)
    (g : DriveImage) :
    g ∈ identify_new_images gd ls ↔
      g ∈ gd ∧ stem g.name ∉ localStems ls := by
  rw [identify_eq_filter, List.mem_filter]
  simp

theorem downloadLoop_mem_of_mem (o : DriveImage → DlOutcome) (t : Nat)
    (imgs : List DriveImage) (acc : Nat × List LocalEntry) (e : LocalEntry)
    (he : e ∈ acc.2) : e ∈ (downloadLoop o t imgs acc).2 := by
  induction imgs generalizing acc with
  | nil => simpa [downloadLoop] using he
  | cons img rest ih =>
    simp only [downloadLoop]
    cases h : o img <;> simp only [h] <;> exact ih _ (by simp [he])

theorem downloadLoop_name_mem (o : DriveImage → DlOutcome) (t : Nat)
    (imgs : List DriveImage) (acc : Nat × List LocalEntry) (img : DriveImage)
    (hmem : img ∈ imgs) (hnot : o img ≠ .failBeforeOpen) :
    img.name ∈ ((downloadLoop o t imgs acc).2.map (fun e => e.name)) := by
  induction imgs generalizing acc with
  | nil => cases hmem
  | cons hd rest ih =>
    rcases List.mem_cons.mp hmem with heq | htail
    · subst heq
      simp only [downloadLoop]
      cases h : o img
      · exact List.mem_map.mpr
          ⟨⟨img.name, t, img.size⟩,
            downloadLoop_mem_of_mem o t rest _ _ (by simp), rfl⟩
      · exact List.mem_map.mpr
          ⟨⟨img.name, t, 0⟩,
            downloadLoop_mem_of_mem o t rest _ _ (by simp), rfl⟩
      · exact absurd h hnot
    · simp only [downloadLoop]
      cases h : o hd <;> exact ih _ htail

theorem downloadLoop_mem_elim (o : DriveImage → DlOutcome) (t : Nat)
    (imgs : List DriveImage) (acc : Nat × List LocalEntry) (e : LocalEntry)
    (he : e ∈ (downloadLoop o t imgs acc).2) :
    e ∈ acc.2 ∨ e.name ∈ imgs.map (fun g => g.name) := by
  induction imgs generalizing acc with
  | nil => exact Or.inl (by simpa [downloadLoop] using he)
  | cons img rest ih =>
    simp only [downloadLoop] at he
    have step : ∀ acc2 : Nat × List LocalEntry,
        e ∈ (downloadLoop o t rest acc2).2 →
        (e ∈ acc2.2 ∨ e.name ∈ rest.map (fun g => g.name)) := fun acc2 h =>
      ih acc2 h
    cases h : o img <;> simp only [h] at he
    · rcases step _ he with h2 | h2
      · rcases List.mem_append.mp h2 with h3 | h3
        · exact Or.inl h3
        · right
          simp only [List.mem_singleton] at h3
          subst h3
          simp
      · right; simp [h2]
    · rcases step _ he with h2 | h2
      · rcases List.mem_append.mp h2 with h3 | h3
        · exact Or.inl h3
        · right
          simp only [List.mem_singleton] at h3
          subst h3
          simp
      · right; simp [h2]
    · rcases step _ he with h2 | h2
      · exact Or.inl h2
      · right; simp [h2]

/-! ## Claim theorems: reconciler (C3, C8, C10, C4) -/

/-- C3: the reconciler's list of new objects is exactly the remote objects
whose name stem is not among the local name stems; in particular a remote
object "img_001.jpg" is classified as already present when a local file
"img_001.png" exists (same stem, different extension). -/
theorem claim3_reconciler_stem_filter :
    (∀ (gd : List DriveImage) (ls : List LocalEntry),
      identify_new_images gd ls
        = gd.filter (fun g => decide (stem g.name ∉ localStems ls))) ∧
    identify_new_images [⟨"id1", "img_001.jpg", 5, 10⟩]
        [⟨"img_001.png", 3, 7⟩] = [] := by
  refine ⟨identify_eq_filter, ?_⟩
  decide

/-- C8: when the remote listing contains no object whose stem is absent
locally, reconciliation finds no new objects and the download step downloads
nothing and leaves the local mirror unchanged, so a second run is a no-op. -/
theorem claim8_reconciliation_idempotent (o : DriveImage → DlOutcome)
    (gd : List DriveImage) (ls : List LocalEntry) (t : Nat)
    (h : ∀ g ∈ gd, stem g.name ∈ localStems ls) :
    identify_new_images gd ls = [] ∧
    download_new_images o (identify_new_images gd ls) ls t = (0, ls) := by
  have hid : identify_new_images gd ls = [] := by
    rw [identify_eq_filter]
    refine List.filter_eq_nil_iff.mpr ?_
    intro g hg
    simpa using h g hg
  refine ⟨hid, ?_⟩
  rw [hid]
  simp [download_new_images]

/-- Witness for C8 at a concrete state where the single remote object's stem
is already present locally under another extension. -/
theorem claim8_witness :
    (∀ g ∈ ([⟨"i1", "a.jpg", 1, 1⟩] : List DriveImage),
        stem g.name ∈ localStems [⟨"a.png", 0, 0⟩]) ∧
    (identify_new_images [⟨"i1", "a.jpg", 1, 1⟩] [⟨"a.png", 0, 0⟩] = [] ∧
     download_new_images (fun _ => DlOutcome.ok)
        (identify_new_images [⟨"i1", "a.jpg", 1, 1⟩] [⟨"a.png", 0, 0⟩])
        [⟨"a.png", 0, 0⟩] 7 = (0, [⟨"a.png", 0, 0⟩])) :=
  ⟨by decide,
   claim8_reconciliation_idempotent (fun _ => DlOutcome.ok) _ _ 7 (by decide)⟩

/-- C10: a download that fails after the destination file was opened leaves a
local file with the object's original name in the mirror, and afterwards every
reconciliation, over any remote listing, classifies any object with that stem
as already present — the failed download is never retried. -/
theorem claim10_failed_download_never_retried (o : DriveImage → DlOutcome)
    (gd : List DriveImage) (ls : List LocalEntry) (t : Nat) (img : DriveImage)
    (h1 : img ∈ identify_new_images gd ls) (h2 : o img = .failAfterOpen) :
    img.name ∈ ((download_new_images o (identify_new_images gd ls) ls t).2.map
        (fun e => e.name)) ∧
    ∀ (gd2 : List DriveImage) (g2 : DriveImage), g2 ∈ gd2 →
      stem g2.name = stem img.name →
      g2 ∉ identify_new_images gd2
          (download_new_images o (identify_new_images gd ls) ls t).2 := by
  have hne : ¬ (identify_new_images gd ls).isEmpty := by
    simp [List.isEmpty_iff, List.ne_nil_of_mem h1]
  have hun : download_new_images o (identify_new_images gd ls) ls t
      = downloadLoop o t (identify_new_images gd ls) (0, ls) := by
    rw [download_new_images, if_neg hne]
  have hname : img.name ∈
      ((download_new_images o (identify_new_images gd ls) ls t).2.map
        (fun e => e.name)) := by
    rw [hun]
    exact downloadLoop_name_mem o t _ _ img h1 (by rw [h2]; intro hc; cases hc)
  refine ⟨hname, ?_⟩
  intro gd2 g2 _ hstem hmem
  obtain ⟨e, he, hename⟩ := List.mem_map.mp hname
  have hstemin : stem g2.name ∈ localStems
      (download_new_images o (identify_new_images gd ls) ls t).2 := by
    refine List.mem_map.mpr ⟨e, he, ?_⟩
    rw [hename, hstem]
  exact ((mem_identify_iff _ _ _).mp hmem).2 hstemin

/-- Witness for C10: remote object "a.jpg", empty mirror, download fails after
open; the file "a.jpg" is left behind and the object is not new afterwards. -/
theorem claim10_witness :
    (⟨"i1", "a.jpg", 1, 1⟩ : DriveImage) ∈
        identify_new_images [⟨"i1", "a.jpg", 1, 1⟩] [] ∧
    ((⟨"i1", "a.jpg", 1, 1⟩ : DriveImage).name ∈
        ((download_new_images (fun _ => DlOutcome.failAfterOpen)
            (identify_new_images [⟨"i1", "a.jpg", 1, 1⟩] []) [] 5).2.map
          (fun e => e.name)) ∧
      ∀ (gd2 : List DriveImage) (g2 : DriveImage), g2 ∈ gd2 →
        stem g2.name = stem (⟨"i1", "a.jpg", 1, 1⟩ : DriveImage).name →
        g2 ∉ identify_new_images gd2
            (download_new_images (fun _ => DlOutcome.failAfterOpen)
              (identify_new_images [⟨"i1", "a.jpg", 1, 1⟩] []) [] 5).2) :=
  ⟨by decide,
   claim10_failed_download_never_retried (fun _ => DlOutcome.failAfterOpen)
     [⟨"i1", "a.jpg", 1, 1⟩] [] 5 ⟨"i1", "a.jpg", 1, 1⟩ (by decide) rfl⟩

/-- C4 counterexample: with one remote object "a.jpg" and a pre-existing local
file "x.jpg", after the download-new phase the local stem "x" is not among the
remote stems — the local stem set is not a subset of the remote stem set. -/
theorem claim4_counterexample :
    ¬ (∀ s ∈ localStems (downloadPhase (fun _ => DlOutcome.ok)
          [⟨"idA", "a.jpg", 5, 1⟩] [⟨"x.jpg", 1, 1⟩] 9).2,
        s ∈ gdStems [⟨"idA", "a.jpg", 5, 1⟩]) := by decide

/-- C4 (amended): provided the local stem set is a subset of the remote stem
set when the run starts, immediately after the download-new phase completes
(before any eviction) the local stem set is still a subset of the remote
stem set. -/
theorem claim4_amended_subset (o : DriveImage → DlOutcome)
    (gd : List DriveImage) (ls : List LocalEntry) (t : Nat)
    (hsub : ∀ s ∈ localStems ls, s ∈ gdStems gd) :
    ∀ s ∈ localStems (downloadPhase o gd ls t).2, s ∈ gdStems gd := by
  intro s hs
  by_cases hgd : gd.isEmpty
  · rw [downloadPhase, if_pos hgd] at hs
    exact hsub s hs
  · rw [downloadPhase, if_neg hgd] at hs
    by_cases hne : (identify_new_images gd ls).isEmpty
    · rw [download_new_images, if_pos hne] at hs
      exact hsub s hs
    · rw [download_new_images, if_neg hne] at hs
      obtain ⟨e, he, hes⟩ := List.mem_map.mp hs
      rcases downloadLoop_mem_elim o t _ (0, ls) e he with h2 | h2
      · exact hsub s (by rw [← hes]; exact List.mem_map.mpr ⟨e, h2, rfl⟩)
      · obtain ⟨g, hg, hgname⟩ := List.mem_map.mp h2
        have hgmem : g ∈ gd := ((mem_identify_iff gd ls g).mp hg).1
        refine List.mem_map.mpr ⟨g, hgmem, ?_⟩
        rw [hgname, hes]

/-- Witness for C4 (amended): local "a.png" whose stem matches remote "a.jpg";
after the download phase all local stems are still remote stems. -/
theorem claim4_witness :
    (∀ s ∈ localStems [⟨"a.png", 0, 0⟩],
        s ∈ gdStems [⟨"i1", "a.jpg", 1, 1⟩]) ∧
    (∀ s ∈ localStems (downloadPhase (fun _ => DlOutcome.ok)
          [⟨"i1", "a.jpg", 1, 1⟩] [⟨"a.png", 0, 0⟩] 4).2,
        s ∈ gdStems [⟨"i1", "a.jpg", 1, 1⟩]) :=
  ⟨by decide,
   claim4_amended_subset (fun _ => DlOutcome.ok) [⟨"i1", "a.jpg", 1, 1⟩]
     [⟨"a.png", 0, 0⟩] 4 (by decide)⟩

/-! ## Capacity-enforcement lemmas -/

theorem filter_not_mem_append {α : Type} [DecidableEq α] (t d : List α)
    (hdisj : ∀ a ∈ d, a ∉ t) :
    (t ++ d).filter (fun e => decide (e ∉ t)) = d := by
  rw [List.filter_append]
  have h1 : t.filter (fun e => decide (e ∉ t)) = [] :=
    List.filter_eq_nil_iff.mpr (fun a ha => by simp [ha])
  have h2 : d.filter (fun e => decide (e ∉ t)) = d :=
    List.filter_eq_self.mpr (fun a ha => by
      simp only [decide_eq_true_eq]
      exact hdisj a ha)
  rw [h1, h2, List.nil_append]

theorem filter_not_mem_take {α : Type} [DecidableEq α] (l : List α) (k : Nat)
    (h : l.Nodup) :
    l.filter (fun e => decide (e ∉ l.take k)) = l.drop k := by
  have hnd : (l.take k ++ l.drop k).Nodup := by
    rw [List.take_append_drop]; exact h
  have hdisj : ∀ a ∈ l.drop k, a ∉ l.take k := by
    intro a ha hc
    exact (List.nodup_append.mp hnd).2.2 hc ha
  calc l.filter (fun e => decide (e ∉ l.take k))
      = (l.take k ++ l.drop k).filter (fun e => decide (e ∉ l.take k)) := by
        rw [List.take_append_drop]
    _ = l.drop k := filter_not_mem_append _ _ hdisj

theorem pairwise_take_drop {α : Type} (r : α → α → Prop) (l : List α) (k : Nat)
    (h : l.Pairwise r) :
    ∀ a ∈ l.take k, ∀ b ∈ l.drop k, r a b := by
  have hp : (l.take k ++ l.drop k).Pairwise r := by
    rw [List.take_append_drop]; exact h
  exact (List.pairwise_append.mp hp).2.2

/-! ## Claim theorems: capacity enforcement (C2) and pagination (C5) -/

/-- C2 counterexample: a remote entry set of two objects spread across two
listing pages, `max_images = 1`, all deletions succeeding: capacity
enforcement's single un-paged list call sees only the first page, decides
there is no overflow, removes nothing, and two entries remain — the count is
not reduced to `maxCount` and the remaining entries are not the single
most-recently-modified one. -/
theorem claim2_counterexample :
    (cleanup_google_drive_overflow (fun _ => DelRes.ok)
        [[⟨"p", "p.jpg", 1, 1⟩], [⟨"q", "q.jpg", 2, 1⟩]] 1).1 = 0 ∧
    (cleanup_google_drive_overflow (fun _ => DelRes.ok)
        [[⟨"p", "p.jpg", 1, 1⟩], [⟨"q", "q.jpg", 2, 1⟩]] 1).2.length = 2 ∧
    ¬ ((cleanup_google_drive_overflow (fun _ => DelRes.ok)
        [[⟨"p", "p.jpg", 1, 1⟩], [⟨"q", "q.jpg", 2, 1⟩]] 1).2.length ≤ 1) := by
  decide

/-- C2 (amended): on an ascending-by-modification-time listing larger than the
maximum, with all deletions succeeding, capacity enforcement (local
`cleanup_old_images` unconditionally, remote `cleanup_google_drive_overflow`
when the remote set fits in a single listing page) removes exactly the oldest
`count - maxCount` entries, in ascending order of modification time, and the
remaining entries are the `maxCount` most-recently-modified ones (every
removed entry is at most as recent as every kept one). -/
theorem claim2_eviction_oldest_first
    (files : List LocalEntry) (maxI : Nat)
    (hsorted : files.Pairwise (fun a b => a.modified ≤ b.modified))
    (hover : maxI < files.length)
    (all : List DriveImage) (maxR : Nat)
    (hsortedR : all.Pairwise (fun a b => a.modified ≤ b.modified))
    (hnodup : all.Nodup)
    (hoverR : maxR < all.length) :
    ((cleanup_old_images (fun _ => true) files maxI).1
        = files.length - maxI ∧
     (cleanup_old_images (fun _ => true) files maxI).2
        = files.drop (files.length - maxI) ∧
     (cleanup_old_images (fun _ => true) files maxI).2.length = maxI ∧
     (files.take (files.length - maxI)).Pairwise
        (fun a b => a.modified ≤ b.modified) ∧
     ∀ r ∈ files.take (files.length - maxI),
       ∀ k ∈ (cleanup_old_images (fun _ => true) files maxI).2,
         r.modified ≤ k.modified) ∧
    ((cleanup_google_drive_overflow (fun _ => DelRes.ok) [all] maxR).1
        = all.length - maxR ∧
     (cleanup_google_drive_overflow (fun _ => DelRes.ok) [all] maxR).2
        = all.drop (all.length - maxR) ∧
     (cleanup_google_drive_overflow (fun _ => DelRes.ok) [all] maxR).2.length
        = maxR ∧
     (all.take (all.length - maxR)).Pairwise
        (fun a b => a.modified ≤ b.modified) ∧
     ∀ r ∈ all.take (all.length - maxR),
       ∀ k ∈ (cleanup_google_drive_overflow (fun _ => DelRes.ok) [all] maxR).2,
         r.modified ≤ k.modified) := by
  have hL : ¬ files.length ≤ maxI := not_le.mpr hover
  have hR : ¬ all.length ≤ maxR := not_le.mpr hoverR
  have hlocal : cleanup_old_images (fun _ => true) files maxI
      = (files.length - maxI, files.drop (files.length - maxI)) := by
    rw [cleanup_old_images, if_neg hL]
    simp [List.length_take, Nat.min_eq_left (Nat.sub_le _ _)]
  have hsp : listSinglePage [all] = all := rfl
  have hjoin : get_google_drive_images [all] = all := by
    simp [get_google_drive_images]
  have hdel : (all.take (all.length - maxR)).filter
      (fun e => delSucceeds ((fun _ => DelRes.ok) e))
      = all.take (all.length - maxR) := by
    simp [delSucceeds]
  have hremote : cleanup_google_drive_overflow (fun _ => DelRes.ok) [all] maxR
      = (all.length - maxR, all.drop (all.length - maxR)) := by
    rw [cleanup_google_drive_overflow]
    simp only [hsp, hjoin]
    rw [if_neg hR]
    simp only [hdel]
    refine Prod.ext ?_ ?_
    · simp [List.length_take, Nat.min_eq_left (Nat.sub_le _ _)]
    · exact filter_not_mem_take all (all.length - maxR) hnodup
  refine ⟨?_, ?_⟩
  · rw [hlocal]
    refine ⟨rfl, rfl, ?_, ?_, ?_⟩
    · simp only [List.length_drop]
      omega
    · exact List.Pairwise.sublist (List.take_sublist _ _) hsorted
    · exact pairwise_take_drop _ files (files.length - maxI) hsorted
  · rw [hremote]
    refine ⟨rfl, rfl, ?_, ?_, ?_⟩
    · simp only [List.length_drop]
      omega
    · exact List.Pairwise.sublist (List.take_sublist _ _) hsortedR
    · exact pairwise_take_drop _ all (all.length - maxR) hsortedR

/-- Witness for C2: three local entries trimmed to two, two remote objects
trimmed to one; the oldest entries are removed and the newest remain. -/
theorem claim2_witness :
    (([⟨"a.jpg", 1, 1⟩, ⟨"b.jpg", 2, 1⟩, ⟨"c.jpg", 3, 1⟩] :
        List LocalEntry).Pairwise (fun a b => a.modified ≤ b.modified) ∧
     2 < ([⟨"a.jpg", 1, 1⟩, ⟨"b.jpg", 2, 1⟩, ⟨"c.jpg", 3, 1⟩] :
        List LocalEntry).length ∧
     ([⟨"x", "x.jpg", 1, 1⟩, ⟨"y", "y.jpg", 2, 1⟩] :
        List DriveImage).Pairwise (fun a b => a.modified ≤ b.modified) ∧
     ([⟨"x", "x.jpg", 1, 1⟩, ⟨"y", "y.jpg", 2, 1⟩] :
        List DriveImage).Nodup ∧
     1 < ([⟨"x", "x.jpg", 1, 1⟩, ⟨"y", "y.jpg", 2, 1⟩] :
        List DriveImage).length) ∧
    (cleanup_old_images (fun _ => true)
        [⟨"a.jpg", 1, 1⟩, ⟨"b.jpg", 2, 1⟩, ⟨"c.jpg", 3, 1⟩] 2).2
      = [⟨"b.jpg", 2, 1⟩, ⟨"c.jpg", 3, 1⟩] ∧
    (cleanup_google_drive_overflow (fun _ => DelRes.ok)
        [[⟨"x", "x.jpg", 1, 1⟩, ⟨"y", "y.jpg", 2, 1⟩]] 1).2
      = [⟨"y", "y.jpg", 2, 1⟩] := by
  have h := claim2_eviction_oldest_first
    [⟨"a.jpg", 1, 1⟩, ⟨"b.jpg", 2, 1⟩, ⟨"c.jpg", 3, 1⟩] 2
    (by decide) (by decide)
    [⟨"x", "x.jpg", 1, 1⟩, ⟨"y", "y.jpg", 2, 1⟩] 1
    (by decide) (by decide) (by decide)
  refine ⟨⟨by decide, by decide, by decide, by decide, by decide⟩, ?_, ?_⟩
  · rw [h.1.2.1]; decide
  · rw [h.2.2.1]; decide

/-- C5 counterexample: over a two-page remote listing (one object per page)
with `max_images = 1`, the overflow cleanup's single list call sees only the
first page, decides there is no overflow, and removes nothing, although the
complete remote set has 2 objects — its decision is not made over the
complete remote object set. -/
theorem claim5_counterexample :
    (get_google_drive_images
        [[⟨"a", "a.jpg", 1, 1⟩], [⟨"b", "b.jpg", 2, 1⟩]]).length = 2 ∧
    (cleanup_google_drive_overflow (fun _ => DelRes.ok)
        [[⟨"a", "a.jpg", 1, 1⟩], [⟨"b", "b.jpg", 2, 1⟩]] 1).1 = 0 ∧
    (cleanup_google_drive_overflow (fun _ => DelRes.ok)
        [[⟨"a", "a.jpg", 1, 1⟩], [⟨"b", "b.jpg", 2, 1⟩]] 1).2.length = 2 ∧
    (cleanup_google_drive_overflow (fun _ => DelRes.ok)
        [[⟨"a", "a.jpg", 1, 1⟩, ⟨"b", "b.jpg", 2, 1⟩]] 1).1 = 1 := by
  decide

/-- C5 (amended): `get_google_drive_images` pages through all result pages
(every object of every page is returned), while `cleanup_google_drive_overflow`
and `cleanup_unused_google_drive_images` issue a single list request and their
deletion counts depend only on the first page of the listing. -/
theorem claim5_amended_paging :
    (∀ (pages : Pages) (p : List DriveImage), p ∈ pages →
       ∀ img ∈ p, img ∈ get_google_drive_images pages) ∧
    (∀ (delRes : DriveImage → DelRes) (p1 p2 : Pages) (maxI : Nat),
       p1.headD [] = p2.headD [] →
       (cleanup_google_drive_overflow delRes p1 maxI).1
         = (cleanup_google_drive_overflow delRes p2 maxI).1) ∧
    (∀ (delRes : DriveImage → DelRes) (p1 p2 : Pages)
       (used : List String) (maxK : Nat),
       p1.headD [] = p2.headD [] →
       (cleanup_unused_google_drive_images delRes p1 used maxK).1
         = (cleanup_unused_google_drive_images delRes p2 used maxK).1) := by
  refine ⟨?_, ?_, ?_⟩
  · intro pages p hp img himg
    induction pages with
    | nil => cases hp
    | cons q rest ih =>
      rcases List.mem_cons.mp hp with rfl | htail
      · exact List.mem_append.mpr (Or.inl himg)
      · exact List.mem_append.mpr (Or.inr (ih htail))
  · intro delRes p1 p2 maxI h
    rw [cleanup_google_drive_overflow, cleanup_google_drive_overflow,
      listSinglePage, listSinglePage, h]
    by_cases hle : (p2.headD []).length ≤ maxI
    · rw [if_pos hle, if_pos hle]
    · rw [if_neg hle, if_neg hle]
  · intro delRes p1 p2 used maxK h
    rw [cleanup_unused_google_drive_images, cleanup_unused_google_drive_images,
      listSinglePage, listSinglePage, h]
    by_cases he : (p2.headD []).isEmpty
    · rw [if_pos he, if_pos he]
    · rw [if_neg he, if_neg he]
      by_cases hu : ((p2.headD []).filter
          (fun i => decide (i.name ∉ used))).isEmpty
      · rw [if_pos hu, if_pos hu]
      · rw [if_neg hu, if_neg hu]
        by_cases hz : (p2.headD []).length - maxK = 0
        · rw [if_pos hz, if_pos hz]
        · rw [if_neg hz, if_neg hz]

/-- Witness for C5 (amended): concrete one- and two-page stores with an equal
first page give equal overflow-removal counts, and the two-page store's full
listing contains the second page's object. -/
theorem claim5_witness :
    (([[⟨"a", "a.jpg", 1, 1⟩]] : Pages).headD []
        = ([[⟨"a", "a.jpg", 1, 1⟩], [⟨"b", "b.jpg", 2, 1⟩]] : Pages).headD []) ∧
    ((⟨"b", "b.jpg", 2, 1⟩ : DriveImage) ∈ get_google_drive_images
        [[⟨"a", "a.jpg", 1, 1⟩], [⟨"b", "b.jpg", 2, 1⟩]] ∧
     (cleanup_google_drive_overflow (fun _ => DelRes.ok)
        [[⟨"a", "a.jpg", 1, 1⟩]] 1).1
       = (cleanup_google_drive_overflow (fun _ => DelRes.ok)
        [[⟨"a", "a.jpg", 1, 1⟩], [⟨"b", "b.jpg", 2, 1⟩]] 1).1 ∧
     (cleanup_unused_google_drive_images (fun _ => DelRes.ok)
        [[⟨"a", "a.jpg", 1, 1⟩]] [] 1).1
       = (cleanup_unused_google_drive_images (fun _ => DelRes.ok)
        [[⟨"a", "a.jpg", 1, 1⟩], [⟨"b", "b.jpg", 2, 1⟩]] [] 1).1) := by
  refine ⟨rfl, ?_, ?_, ?_⟩
  · exact claim5_amended_paging.1
      [[⟨"a", "a.jpg", 1, 1⟩], [⟨"b", "b.jpg", 2, 1⟩]]
      [⟨"b", "b.jpg", 2, 1⟩] (by decide) ⟨"b", "b.jpg", 2, 1⟩ (by decide)
  · exact claim5_amended_paging.2.1 (fun _ => DelRes.ok)
      [[⟨"a", "a.jpg", 1, 1⟩]]
      [[⟨"a", "a.jpg", 1, 1⟩], [⟨"b", "b.jpg", 2, 1⟩]] 1 rfl
  · exact claim5_amended_paging.2.2 (fun _ => DelRes.ok)
      [[⟨"a", "a.jpg", 1, 1⟩]]
      [[⟨"a", "a.jpg", 1, 1⟩], [⟨"b", "b.jpg", 2, 1⟩]] [] 1 rfl

/-! ## Sublist counting lemma -/

theorem filter_not_mem_sublist_length {α : Type} [DecidableEq α]
    {t l : List α} (hs : t.Sublist l) (hn : l.Nodup) :
    (l.filter (fun e => decide (e ∉ t))).length = l.length - t.length := by
  induction hs with
  | slnil => simp
  | @cons l1 l2 a hs ih =>
    obtain ⟨ha, hn2⟩ := List.nodup_cons.mp hn
    have hanot : a ∉ l1 := fun hc => ha (hs.subset hc)
    rw [List.filter_cons_of_pos (by simpa using hanot)]
    have hlen := hs.length_le
    simp only [List.length_cons]
    rw [ih hn2]
    omega
  | @cons₂ l1 l2 a hs ih =>
    obtain ⟨ha, hn2⟩ := List.nodup_cons.mp hn
    rw [List.filter_cons_of_neg (by simp)]
    have hcongr : ∀ e ∈ l2,
        (decide (e ∉ a :: l1)) = (decide (e ∉ l1)) := by
      intro e he
      have hne : e ≠ a := fun hc => ha (hc ▸ he)
      simp [List.mem_cons, hne]
    rw [List.filter_congr hcongr, ih hn2]
    simp

/-! ## Claim theorems: unused-input cleanup (C6) -/

/-- C6 counterexample: `max_keep_images = 1`, three remote objects of which
the artifact references the two newest; the cleanup deletes only the single
unused object, so two objects — more than `maxRemoteKeep` — remain.  The
cleanup does not delete "exactly enough to keep at most maxRemoteKeep". -/
theorem claim6_counterexample :
    (cleanup_unused_google_drive_images (fun _ => DelRes.ok)
        [[⟨"a", "a.jpg", 3, 1⟩, ⟨"b", "b.jpg", 2, 1⟩, ⟨"c", "c.jpg", 1, 1⟩]]
        ["a.jpg", "b.jpg"] 1).1 = 1 ∧
    (cleanup_unused_google_drive_images (fun _ => DelRes.ok)
        [[⟨"a", "a.jpg", 3, 1⟩, ⟨"b", "b.jpg", 2, 1⟩, ⟨"c", "c.jpg", 1, 1⟩]]
        ["a.jpg", "b.jpg"] 1).2.length = 2 ∧
    ¬ ((cleanup_unused_google_drive_images (fun _ => DelRes.ok)
        [[⟨"a", "a.jpg", 3, 1⟩, ⟨"b", "b.jpg", 2, 1⟩, ⟨"c", "c.jpg", 1, 1⟩]]
        ["a.jpg", "b.jpg"] 1).2.length ≤ 1) := by
  decide

/-- C6 (amended): on a single-page listing sorted newest-first, with all
deletions succeeding, the unused-input cleanup deletes only objects not
referenced by the artifact's input set, selects the oldest unused ones, and
deletes `min(count - maxRemoteKeep, number of unused)` of them; whenever at
least `count - maxRemoteKeep` objects are unused, exactly `maxRemoteKeep`
objects remain. -/
theorem claim6_amended_unused_cleanup (all : List DriveImage)
    (used : List String) (maxK : Nat)
    (hsorted : all.Pairwise (fun a b => b.modified ≤ a.modified))
    (hnodup : all.Nodup)
    (hover : maxK < all.length)
    (hunused : all.length - maxK ≤
      (all.filter (fun i => decide (i.name ∉ used))).length) :
    (cleanup_unused_google_drive_images (fun _ => DelRes.ok) [all] used
        maxK).1 = all.length - maxK ∧
    (cleanup_unused_google_drive_images (fun _ => DelRes.ok) [all] used
        maxK).2.length = maxK ∧
    (∀ e ∈ all, e ∉ (cleanup_unused_google_drive_images (fun _ => DelRes.ok)
        [all] used maxK).2 → e.name ∉ used) ∧
    (∀ e ∈ all, e ∉ (cleanup_unused_google_drive_images (fun _ => DelRes.ok)
        [all] used maxK).2 →
      ∀ u ∈ (cleanup_unused_google_drive_images (fun _ => DelRes.ok)
        [all] used maxK).2, u.name ∉ used → e.modified ≤ u.modified) := by
  have hne : ¬ all.isEmpty := by
    rw [List.isEmpty_iff]
    intro hc
    have h0 : all.length = 0 := by rw [hc]; rfl
    omega
  have hjoin : get_google_drive_images [all] = all := by
    simp [get_google_drive_images]
  set unused := all.filter (fun i => decide (i.name ∉ used)) with hunu
  have hune : ¬ unused.isEmpty := by
    rw [List.isEmpty_iff]
    intro hc
    have h0 : unused.length = 0 := by rw [hc]; rfl
    omega
  have hnz : ¬ (all.length - maxK = 0) := by omega
  have hmin : min (all.length - maxK) unused.length = all.length - maxK :=
    Nat.min_eq_left hunused
  set n := all.length - maxK with hn
  set targets := unused.drop (unused.length - n) with htg
  have hdel : targets.filter (fun e => delSucceeds ((fun _ => DelRes.ok) e))
      = targets := by simp [delSucceeds]
  have hmain : cleanup_unused_google_drive_images (fun _ => DelRes.ok) [all]
      used maxK = (targets.length, all.filter (fun e => decide (e ∉ targets))) := by
    rw [cleanup_unused_google_drive_images]
    simp only [listSinglePage, List.headD_cons]
    rw [if_neg hne, if_neg hune, if_neg hnz]
    simp only [hmin, hdel, hjoin]
  have htglen : targets.length = n := by
    rw [htg, List.length_drop]
    omega
  have htsub : targets.Sublist all :=
    ((List.drop_sublist _ _).trans (List.filter_sublist _))
  refine ⟨?_, ?_, ?_, ?_⟩
  · rw [hmain]
    exact htglen
  · rw [hmain]
    simp only
    rw [filter_not_mem_sublist_length htsub hnodup, htglen]
    omega
  · intro e hall hnot
    rw [hmain] at hnot
    simp only [List.mem_filter, decide_eq_true_eq, not_and, not_not] at hnot
    have htgm : e ∈ targets := hnot hall
    have : e ∈ unused := (List.drop_sublist _ _).subset htgm
    have := (List.mem_filter.mp this).2
    simpa using this
  · intro e hall hnot u hu huname
    rw [hmain] at hnot hu
    simp only [List.mem_filter, decide_eq_true_eq, not_and, not_not] at hnot
    have htgm : e ∈ targets := hnot hall
    obtain ⟨huall, hutg⟩ := List.mem_filter.mp hu
    have hutg2 : u ∉ targets := by simpa using hutg
    have huun : u ∈ unused := List.mem_filter.mpr (by simpa using ⟨huall, huname⟩)
    have husplit : u ∈ unused.take (unused.length - n) := by
      have := (List.take_append_drop (unused.length - n) unused) ▸ huun
      rcases List.mem_append.mp this with h | h
      · exact h
      · exact absurd h hutg2
    have hup : unused.Pairwise (fun a b => b.modified ≤ a.modified) :=
      List.Pairwise.sublist (List.filter_sublist _) hsorted
    exact pairwise_take_drop _ unused (unused.length - n) hup u husplit e htgm

/-- Witness for C6 (amended): 3 objects, the artifact references the 2 newest,
`max_keep = 2`: the single oldest unused object is deleted and 2 remain. -/
theorem claim6_witness :
    (([⟨"a", "a.jpg", 3, 1⟩, ⟨"b", "b.jpg", 2, 1⟩, ⟨"c", "c.jpg", 1, 1⟩] :
        List DriveImage).Pairwise (fun a b => b.modified ≤ a.modified) ∧
     ([⟨"a", "a.jpg", 3, 1⟩, ⟨"b", "b.jpg", 2, 1⟩, ⟨"c", "c.jpg", 1, 1⟩] :
        List DriveImage).Nodup ∧
     2 < ([⟨"a", "a.jpg", 3, 1⟩, ⟨"b", "b.jpg", 2, 1⟩, ⟨"c", "c.jpg", 1, 1⟩] :
        List DriveImage).length) ∧
    (cleanup_unused_google_drive_images (fun _ => DelRes.ok)
        [[⟨"a", "a.jpg", 3, 1⟩, ⟨"b", "b.jpg", 2, 1⟩, ⟨"c", "c.jpg", 1, 1⟩]]
        ["a.jpg", "b.jpg"] 2).1 = 1 ∧
    (cleanup_unused_google_drive_images (fun _ => DelRes.ok)
        [[⟨"a", "a.jpg", 3, 1⟩, ⟨"b", "b.jpg", 2, 1⟩, ⟨"c", "c.jpg", 1, 1⟩]]
        ["a.jpg", "b.jpg"] 2).2.length = 2 := by
  have h := claim6_amended_unused_cleanup
    [⟨"a", "a.jpg", 3, 1⟩, ⟨"b", "b.jpg", 2, 1⟩, ⟨"c", "c.jpg", 1, 1⟩]
    ["a.jpg", "b.jpg"] 2 (by decide) (by decide) (by decide) (by decide)
  exact ⟨⟨by decide, by decide, by decide⟩, h.1, h.2.1⟩

/-! ## Claim theorems: NotFound handling (C7) -/

/-- C7 counterexample: during eviction a deletion that fails with NotFound is
not treated as an idempotent success: of two overflow entries whose deletions
return NotFound and success respectively, the removed count is 1, not 2. -/
theorem claim7_counterexample :
    (cleanup_google_drive_overflow
        (fun i => if i.id = "a" then DelRes.notFound else DelRes.ok)
        [[⟨"a", "a.jpg", 1, 1⟩, ⟨"b", "b.jpg", 2, 1⟩]] 0).1 = 1 ∧
    ¬ ((cleanup_google_drive_overflow
        (fun i => if i.id = "a" then DelRes.notFound else DelRes.ok)
        [[⟨"a", "a.jpg", 1, 1⟩, ⟨"b", "b.jpg", 2, 1⟩]] 0).1 = 2) := by
  decide

/-- C7 (amended): `delete_specific_timelapse_video` treats NotFound as an
idempotent success, both when the pre-check reports the target gone and when
the delete call itself returns 404; during eviction, however, EVERY
single-entry deletion failure — NotFound included — is logged and counted as
not-removed (the entry stays), while processing of the remaining entries
continues: each overflow entry whose deletion succeeds is removed regardless
of failures among the others, and the removed count is exactly the number of
successful deletions. -/
theorem claim7_amended_delete_results (d1 d2 : DelRes) (check : CheckRes)
    (delRes : DriveImage → DelRes) (all : List DriveImage) (maxI : Nat)
    (hover : maxI < all.length) :
    delete_specific_timelapse_video CheckRes.notFound d1 d2 = true ∧
    delete_specific_timelapse_video check DelRes.notFound d2 = true ∧
    (cleanup_google_drive_overflow delRes [all] maxI).1
       = ((all.take (all.length - maxI)).filter
           (fun e => delSucceeds (delRes e))).length ∧
    ∀ e ∈ all.take (all.length - maxI),
      (delSucceeds (delRes e) = true →
         e ∉ (cleanup_google_drive_overflow delRes [all] maxI).2) ∧
      (delSucceeds (delRes e) = false →
         e ∈ (cleanup_google_drive_overflow delRes [all] maxI).2) := by
  have hR : ¬ all.length ≤ maxI := not_le.mpr hover
  have hjoin : get_google_drive_images [all] = all := by
    simp [get_google_drive_images]
  set toRemove := all.take (all.length - maxI) with htr
  set deleted := toRemove.filter (fun e => delSucceeds (delRes e)) with hdel
  have hmain : cleanup_google_drive_overflow delRes [all] maxI
      = (deleted.length, all.filter (fun e => decide (e ∉ deleted))) := by
    rw [cleanup_google_drive_overflow]
    simp only [listSinglePage, List.headD_cons]
    rw [if_neg hR]
    simp only [hjoin]
  refine ⟨?_, ?_, ?_, ?_⟩
  · rfl
  · cases check with
    | found b => cases b <;> rfl
    | notFound => rfl
    | httpErr => rfl
  · rw [hmain]
  · intro e he
    constructor
    · intro hsucc hc
      rw [hmain] at hc
      have := (List.mem_filter.mp hc).2
      simp only [decide_eq_true_eq] at this
      exact this (List.mem_filter.mpr ⟨he, hsucc⟩)
    · intro hfail
      rw [hmain]
      refine List.mem_filter.mpr ⟨(List.take_sublist _ _).subset he, ?_⟩
      simp only [decide_eq_true_eq]
      intro hc
      rw [(List.mem_filter.mp hc).2] at hfail
      cases hfail


/-- Witness for C7 (amended) at a concrete eviction of two entries where the
first deletion returns NotFound and the second succeeds. -/
theorem claim7_witness :
    0 < ([⟨"a", "a.jpg", 1, 1⟩, ⟨"b", "b.jpg", 2, 1⟩] :
        List DriveImage).length ∧
    (delete_specific_timelapse_video CheckRes.notFound DelRes.otherExc
        DelRes.otherExc = true ∧
     delete_specific_timelapse_video (CheckRes.found false) DelRes.notFound
        DelRes.otherExc = true ∧
     (cleanup_google_drive_overflow
        (fun i => if i.id = "a" then DelRes.notFound else DelRes.ok)
        [[⟨"a", "a.jpg", 1, 1⟩, ⟨"b", "b.jpg", 2, 1⟩]] 0).1
       = ((([⟨"a", "a.jpg", 1, 1⟩, ⟨"b", "b.jpg", 2, 1⟩] :
            List DriveImage).take 2).filter
           (fun e => delSucceeds
             (if e.id = "a" then DelRes.notFound else DelRes.ok))).length ∧
     ∀ e ∈ ([⟨"a", "a.jpg", 1, 1⟩, ⟨"b", "b.jpg", 2, 1⟩] :
         List DriveImage).take 2,
       (delSucceeds (if e.id = "a" then DelRes.notFound else DelRes.ok)
          = true →
          e ∉ (cleanup_google_drive_overflow
            (fun i => if i.id = "a" then DelRes.notFound else DelRes.ok)
            [[⟨"a", "a.jpg", 1, 1⟩, ⟨"b", "b.jpg", 2, 1⟩]] 0).2) ∧
       (delSucceeds (if e.id = "a" then DelRes.notFound else DelRes.ok)
          = false →
          e ∈ (cleanup_google_drive_overflow
            (fun i => if i.id = "a" then DelRes.notFound else DelRes.ok)
            [[⟨"a", "a.jpg", 1, 1⟩, ⟨"b", "b.jpg", 2, 1⟩]] 0).2)) :=
  ⟨by decide,
   claim7_amended_delete_results DelRes.otherExc DelRes.otherExc
     (CheckRes.found false)
     (fun i => if i.id = "a" then DelRes.notFound else DelRes.ok)
     [⟨"a", "a.jpg", 1, 1⟩, ⟨"b", "b.jpg", 2, 1⟩] 0 (by decide)⟩

/-! ## Claim theorems: retry policy (C9) -/

/-- C9 counterexample: `verify_folder_access` sleeps 2 then 3 seconds between
attempts on persistent HTTP errors; no base makes the sequence 2, 3 equal to
`base * 2 ^ attempt`, so the backoff of this retry wrapper is not of the form
claimed. -/
theorem claim9_counterexample :
    (verify_folder_access_run (fun _ => VfOutcome.httpErr)).2 = [2, 3] ∧
    ∀ b : ℚ, ¬ (b * 2 ^ (0 : ℕ) = 2 ∧ b * 2 ^ (1 : ℕ) = 3) := by
  refine ⟨rfl, ?_⟩
  rintro b ⟨h0, h1⟩
  rw [pow_zero, mul_one] at h0
  rw [h0] at h1
  norm_num at h1

/-- C9 (amended): `upload_video` retries transient (SSL/network) errors up to
3 attempts sleeping `2 * 2 ^ attempt` between attempts and re-raises after
exhausting them, propagates any unclassified error immediately without
retrying, and returns on first success; `verify_folder_access` retries HTTP
and network errors up to 3 attempts sleeping `2 ^ attempt + 1` between
attempts, returns failure after exhausting them, and returns failure
immediately on an unclassified error. -/
theorem claim9_amended_retry (o : Nat → UpOutcome) (v : Nat → VfOutcome)
    (ht : ∀ i, i < 3 → o i = UpOutcome.transientErr)
    (hv : ∀ i, i < 3 → v i = VfOutcome.httpErr) :
    upload_video_run o = (UpResult.raisedTransient, [2, 4]) ∧
    verify_folder_access_run v = (false, [2, 3]) ∧
    (∀ o2 : Nat → UpOutcome, o2 0 = UpOutcome.otherErr →
      upload_video_run o2 = (UpResult.raisedOther, [])) ∧
    (∀ o2 : Nat → UpOutcome, o2 0 = UpOutcome.success →
      upload_video_run o2 = (UpResult.uploaded, [])) ∧
    (∀ v2 : Nat → VfOutcome, v2 0 = VfOutcome.otherErr →
      verify_folder_access_run v2 = (false, [])) := by
  refine ⟨?_, ?_, ?_, ?_, ?_⟩
  · simp [upload_video_run, upload_attempts,
      ht 0 (by norm_num), ht 1 (by norm_num), ht 2 (by norm_num)]
  · simp [verify_folder_access_run, verify_attempts,
      hv 0 (by norm_num), hv 1 (by norm_num), hv 2 (by norm_num)]
  · intro o2 h
    simp [upload_video_run, upload_attempts, h]
  · intro o2 h
    simp [upload_video_run, upload_attempts, h]
  · intro v2 h
    simp [verify_folder_access_run, verify_attempts, h]

/-- Witness for C9 (amended) with constantly-failing oracles. -/
theorem claim9_witness :
    ((∀ i, i < 3 → (fun _ => UpOutcome.transientErr) i
        = UpOutcome.transientErr) ∧
     (∀ i, i < 3 → (fun _ => VfOutcome.httpErr) i = VfOutcome.httpErr)) ∧
    (upload_video_run (fun _ => UpOutcome.transientErr)
        = (UpResult.raisedTransient, [2, 4]) ∧
     verify_folder_access_run (fun _ => VfOutcome.httpErr) = (false, [2, 3]) ∧
     (∀ o2 : Nat → UpOutcome, o2 0 = UpOutcome.otherErr →
       upload_video_run o2 = (UpResult.raisedOther, [])) ∧
     (∀ o2 : Nat → UpOutcome, o2 0 = UpOutcome.success →
       upload_video_run o2 = (UpResult.uploaded, [])) ∧
     (∀ v2 : Nat → VfOutcome, v2 0 = VfOutcome.otherErr →
       verify_folder_access_run v2 = (false, []))) :=
  ⟨⟨fun _ _ => rfl, fun _ _ => rfl⟩,
   claim9_amended_retry (fun _ => UpOutcome.transientErr)
     (fun _ => VfOutcome.httpErr) (fun _ _ => rfl) (fun _ _ => rfl)⟩

/-! ## Claim theorems: safe artifact replacement (C1) -/

/-- C1: if the upload of the new artifact fails, the previously published
artifact remains in the remote store and no deletion of it is attempted; in
every run, a deletion of the previously identified artifact occurs in the
event trace only after the upload has completed successfully. -/
theorem claim1_upload_before_delete (createOk deletePrev deleteOk : Bool)
    (oldId newId : String) (videos : List String) (hmem : oldId ∈ videos) :
    (oldId ∈ (artifactReplaceRun createOk deletePrev (some oldId) false
        deleteOk videos newId).remoteVideos ∧
      ∀ v, Evt.deleteOld v ∉ (artifactReplaceRun createOk deletePrev
        (some oldId) false deleteOk videos newId).trace) ∧
    (∀ (c dp : Bool) (ex : Option String) (us dOk : Bool)
        (vs : List String) (nid v : String),
      Evt.deleteOld v ∈ (artifactReplaceRun c dp ex us dOk vs nid).trace →
      [Evt.uploadOk, Evt.deleteOld v].Sublist
        (artifactReplaceRun c dp ex us dOk vs nid).trace) := by
  constructor
  · by_cases hc : createOk <;>
      simp [artifactReplaceRun, hc, hmem]
  · intro c dp ex us dOk vs nid v hv
    by_cases hc : c
    · by_cases hu : us
      · cases dp with
        | false =>
          simp [artifactReplaceRun, hc, hu] at hv
        | true =>
          cases ex with
          | none =>
            simp [artifactReplaceRun, hc, hu] at hv
          | some oldId =>
            simp only [artifactReplaceRun, hc, hu, if_true] at hv ⊢
            simp only [List.mem_cons, List.not_mem_nil, or_false] at hv
            rcases hv with h | h | h
            · cases h
            · cases h
            · cases h
              exact (List.Sublist.refl _).cons₂ _ |>.cons _
      · simp [artifactReplaceRun, hc, hu] at hv
    · simp [artifactReplaceRun, hc] at hv

/-- Witness for C1: a run with one published video "old" whose replacement
upload fails; the old video survives and no deletion event occurs. -/
theorem claim1_witness :
    "old" ∈ ["old"] ∧
    (("old" ∈ (artifactReplaceRun true true (some "old") false true
        ["old"] "new").remoteVideos ∧
      ∀ v, Evt.deleteOld v ∉ (artifactReplaceRun true true
        (some "old") false true ["old"] "new").trace) ∧
     (∀ (c dp : Bool) (ex : Option String) (us dOk : Bool)
         (vs : List String) (nid v : String),
       Evt.deleteOld v ∈ (artifactReplaceRun c dp ex us dOk vs nid).trace →
       [Evt.uploadOk, Evt.deleteOld v].Sublist
         (artifactReplaceRun c dp ex us dOk vs nid).trace)) :=
  ⟨by decide,
   claim1_upload_before_delete true true true "old" "new" ["old"] (by decide)⟩

end Timelapse
